import Mathlib

/-!
Verification of the tap-response firmware `EP-Tap-analog-1.3.6.ino`.

The firmware runs one trial per `loop()` iteration: it parses two integers
from the serial stream (target response count, time limit in ms), clamps the
count to the fixed buffer capacity, then alternates a debounce (ARMED) loop
and a detection loop, recording one `micros()` timestamp per detected tap,
until the target is reached or the time limit expires, and finally reports
the clamped parameters, the start timestamp, the collected count, and each
timestamp relative to the start.

The embedding is trace-driven: the external clock, analog channel and the two
digital buttons are sampled once per busy-poll iteration, so a trial is a
function of the initial parameters and a finite list of `Poll` samples.
`micros()` returns the true (unbounded) time reduced modulo 2^32, and all
elapsed-time computations use the unsigned 32-bit subtraction of the firmware.
-/

namespace TapArduino

/-- Modulus of Arduino `unsigned long` arithmetic; `micros()` wraps here. -/
def M32 : Nat := 4294967296

/-- Unsigned 32-bit subtraction `a - b`, the elapsed-time computation of the
firmware (`micros() - t`, `t - t0`, `respTAbs[i] - t0`). -/
def usub32 (a b : Nat) : Nat := (a % M32 + (M32 - b % M32)) % M32

/-- `const unsigned int adThreshHigh = 25;` — detect tap on piezo. -/
def adThreshHigh : Nat := 25

/-- `const unsigned int adThreshLow = 25;` — end of tap on piezo. -/
def adThreshLow : Nat := 25

/-- `const unsigned long tDebounce = 60000L;` — debounce duration in µs. -/
def tDebounce : Nat := 60000

/-- `const int MaxRespCount = 256;` — capacity of the `respTAbs` array. -/
def MaxRespCount : Nat := 256

/-- One environment sample seen by one busy-poll iteration: the true
(unwrapped) time in µs — the code observes `time % M32` via `micros()` —
the `analogRead(adInput)` value, and the two `digitalRead` button states. -/
structure Poll where
  time : Nat
  analog : Nat
  button1 : Bool
  button2 : Bool
deriving DecidableEq

/-- Outcome of one iteration of the debounce loop. -/
inductive DebStep where
  | done
  | reset
  | keep
deriving DecidableEq

/-- One iteration of the debounce loop (lines 149-156): the loop exits when
`micros() - t >= tDebounce`; otherwise a reading at-or-above `adThreshLow`
re-arms the reference (`t = micros()`); otherwise it keeps waiting. -/
def debounceStep (tref : Nat) (p : Poll) : DebStep :=
  if tDebounce ≤ usub32 (p.time % M32) tref then DebStep.done
  else if adThreshLow ≤ p.analog then DebStep.reset
  else DebStep.keep

/-- The debounce loop, consuming samples until it exits; `none` when the
trace is exhausted before the debounce window completes. -/
def debounceRun (tref : Nat) : List Poll → Option (List Poll)
  | [] => none
  | p :: ps =>
    match debounceStep tref p with
    | DebStep.done => some ps
    | DebStep.reset => debounceRun (p.time % M32) ps
    | DebStep.keep => debounceRun tref ps

/-- `for (t = micros(); ...)`: the first sample initializes the reference. -/
def debounceStart : List Poll → Option (List Poll)
  | [] => none
  | p :: ps => debounceRun (p.time % M32) ps

/-- Outcome of one iteration of the detection (`do ... while`) loop. -/
inductive DetStep where
  | deadline
  | detected
  | keep
deriving DecidableEq

/-- One iteration of the detection loop (lines 160-165): `t = micros()`;
exit the whole collection when `t - t0 >= respTLimit`; else a tap is
detected when a button reads active (checked first) or the analog reading is
at-or-above `adThreshHigh`; else poll again. -/
def detectStep (t0 respTLimit : Nat) (p : Poll) : DetStep :=
  if respTLimit ≤ usub32 (p.time % M32) t0 then DetStep.deadline
  else if p.button1 || p.button2 then DetStep.detected
  else if adThreshHigh ≤ p.analog then DetStep.detected
  else DetStep.keep

/-- Result of running the detection loop on a trace: a detected tap carries
the timestamp `t` recorded into `respTAbs` (line 166). -/
inductive DetectResult where
  | detected (t : Nat) (rest : List Poll)
  | deadline (rest : List Poll)
  | exhausted
deriving DecidableEq

/-- The detection loop, consuming samples until a tap is detected or the
deadline check succeeds (the `goto respLoopExit`). -/
def detectRun (t0 respTLimit : Nat) : List Poll → DetectResult
  | [] => DetectResult.exhausted
  | p :: ps =>
    match detectStep t0 respTLimit p with
    | DetStep.deadline => DetectResult.deadline ps
    | DetStep.detected => DetectResult.detected (p.time % M32) ps
    | DetStep.keep => detectRun t0 respTLimit ps

/-- How the GET RESPONSES loop ended. -/
inductive ExitKind where
  | completed
  | deadlineHit
  | exhausted
deriving DecidableEq

/-- The GET RESPONSES loop (lines 145-167) with `k` iterations remaining and
current LED state `led`: each iteration asserts the LED, runs the debounce
loop, clears the LED, runs the detection loop, and on a detected tap records
its timestamp. Returns the recorded absolute timestamps in arrival order,
the LED state when the loop ends, and how it ended. -/
def collectGo (t0 respTLimit : Nat) : Nat → Bool → List Poll → List Nat × Bool × ExitKind
  | 0, led, _ => ([], led, ExitKind.completed)
  | k + 1, _, tr =>
    match debounceStart tr with
    | none => ([], true, ExitKind.exhausted)
    | some tr1 =>
      match detectRun t0 respTLimit tr1 with
      | DetectResult.exhausted => ([], false, ExitKind.exhausted)
      | DetectResult.deadline _ => ([], false, ExitKind.deadlineHit)
      | DetectResult.detected t rest =>
        (t :: (collectGo t0 respTLimit k false rest).1,
         (collectGo t0 respTLimit k false rest).2.1,
         (collectGo t0 respTLimit k false rest).2.2)

/-- Line 136: `if (respCountTarget > MaxRespCount) respCountTarget = MaxRespCount;` -/
def clampTarget (respCountTarget : Nat) : Nat :=
  if MaxRespCount < respCountTarget then MaxRespCount else respCountTarget

/-- Observable outcome of one trial: the echoed (clamped) parameters, the
start timestamp, the collected count, the reported relative timestamps, the
LED state at report time, and how collection ended. -/
structure TrialResult where
  respCountTarget : Nat
  respTLimit_ms : Nat
  t0 : Nat
  respCount : Nat
  rels : List Nat
  ledAtReport : Bool
  exit : ExitKind
deriving DecidableEq

/-- One `loop()` iteration after parameter parsing (lines 134-186):
`t0true` is the true time at the `t0 = micros()` of line 134 and `tr` the
subsequent environment samples. The time limit is converted to µs with
`unsigned long` overflow; the target is clamped before its first use; the
report prints `respTAbs[i] - t0` for each collected response. -/
def runTrial (respCountTargetIn respTLimit_ms t0true : Nat) (tr : List Poll) : TrialResult :=
  let t0 := t0true % M32
  let target := clampTarget respCountTargetIn
  let respTLimit := respTLimit_ms * 1000 % M32
  let r := collectGo t0 respTLimit target true tr
  { respCountTarget := target
    respTLimit_ms := respTLimit_ms
    t0 := t0
    respCount := r.1.length
    rels := r.1.map (fun t => usub32 t t0)
    ledAtReport := r.2.1
    exit := r.2.2 }

/-- The result record (lines 173-186) as the sequence of printed integers,
in order: clamped target, time limit (ms), start timestamp, collected count,
the relative timestamps, and a final `micros()` sample; the sentinel "."
follows. -/
def reportFields (r : TrialResult) (tEndTrue : Nat) : List Nat :=
  r.respCountTarget :: r.respTLimit_ms :: r.t0 :: r.respCount :: (r.rels ++ [tEndTrue % M32])

/-- Numeric value of an ASCII digit. -/
def digitVal (c : Char) : Nat := c.toNat - 48

/-- Decimal value of a digit run. -/
def digitsToNat (ds : List Char) : Nat := ds.foldl (fun n c => 10 * n + digitVal c) 0

/-- `Serial.parseInt()` of the external transport, as the inbound protocol
section of the spec describes it: skip any leading non-digit bytes, then read a run of
digits; the terminating non-digit byte is left in the stream. -/
def parseIntM (s : List Char) : Nat × List Char :=
  let s1 := s.dropWhile (fun c => !c.isDigit)
  (digitsToNat (s1.takeWhile (fun c => c.isDigit)), s1.dropWhile (fun c => c.isDigit))

/-- Line 130: `while (Serial.available()) Serial.read();` — reads and
discards every currently-available byte one at a time. `stale` is the
buffered input available at flush time, `fresh` the bytes arriving after. -/
def flushStale (stale fresh : List Char) : List Char :=
  match stale with
  | [] => fresh
  | _ :: rest => flushStale rest fresh

/-- GET TRIAL PARAMETERS (lines 130-133): discard the stale buffer, then
parse `respCountTarget` and `respTLimit_ms` in order from what remains. -/
def readTrialParams (stale fresh : List Char) : Nat × Nat × List Char :=
  let buf := flushStale stale fresh
  let p1 := parseIntM buf
  let p2 := parseIntM p1.2
  (p1.1, p2.1, p2.2)

/-- A demonstration trace: the debounce reference starts at time 0, the
window completes at time 60000, and a button press at time 70000 is the
detected tap. -/
def demoTrace : List Poll :=
  [⟨0, 0, false, false⟩, ⟨60000, 0, false, false⟩, ⟨70000, 0, true, false⟩]

/-- A trace whose detection phase hits the deadline: debounce completes at
time 60000, and the next sample at time 60200 is past a 100 µs limit. -/
def deadlineTrace : List Poll :=
  [⟨0, 0, false, false⟩, ⟨60000, 0, false, false⟩, ⟨60200, 0, false, false⟩]

/-- A trace whose signal first sits at-or-above the low threshold (re-arming
the debounce reference at time 1000) and then stays below it until the
window completes at time 61500. -/
def bounceTrace : List Poll :=
  [⟨1000, 30, false, false⟩, ⟨61500, 0, false, false⟩]

/-- A boundary sample: analog reading exactly at the (shared) threshold 25. -/
def boundaryPoll : Poll := ⟨10, 25, false, false⟩

/-- The unsigned 32-bit subtraction of wrapped samples recovers the true
elapsed time when the samples are at most one wrap apart. -/
theorem usub32_elapsed (s n : Nat) (h1 : s ≤ n) (h2 : n - s < M32) :
    usub32 (n % M32) (s % M32) = n - s := by
  simp only [usub32, M32] at *
  omega

/-- Characterization of the debounce-loop exit condition. -/
theorem debounceStep_done_iff (tref : Nat) (p : Poll) :
    debounceStep tref p = DebStep.done ↔ tDebounce ≤ usub32 (p.time % M32) tref := by
  unfold debounceStep
  split_ifs with h1 h2 <;> simp_all

/-- Characterization of the debounce re-arm condition. -/
theorem debounceStep_reset_iff (tref : Nat) (p : Poll) :
    debounceStep tref p = DebStep.reset ↔
      (usub32 (p.time % M32) tref < tDebounce ∧ adThreshLow ≤ p.analog) := by
  unfold debounceStep
  split_ifs with h1 h2 <;> simp_all

/-- Characterization of the debounce keep-waiting condition. -/
theorem debounceStep_keep_iff (tref : Nat) (p : Poll) :
    debounceStep tref p = DebStep.keep ↔
      (usub32 (p.time % M32) tref < tDebounce ∧ p.analog < adThreshLow) := by
  unfold debounceStep
  split_ifs with h1 h2 <;> simp_all

/-- Characterization of a deadline hit in the detection loop. -/
theorem detectStep_deadline_iff (t0 lim : Nat) (p : Poll) :
    detectStep t0 lim p = DetStep.deadline ↔ lim ≤ usub32 (p.time % M32) t0 := by
  unfold detectStep
  split_ifs with h1 h2 h3 <;> simp_all

/-- Characterization of a detected tap in the detection loop. -/
theorem detectStep_detected_iff (t0 lim : Nat) (p : Poll) :
    detectStep t0 lim p = DetStep.detected ↔
      (usub32 (p.time % M32) t0 < lim ∧
        (p.button1 = true ∨ p.button2 = true ∨ adThreshHigh ≤ p.analog)) := by
  unfold detectStep
  rcases Nat.lt_or_ge (usub32 (p.time % M32) t0) lim with hlt | hge
  · rw [if_neg (by omega)]
    cases hb1 : p.button1 <;> cases hb2 : p.button2 <;>
      by_cases hA : adThreshHigh ≤ p.analog <;> simp [hb1, hb2, hA, hlt]
  · rw [if_pos hge]
    constructor
    · intro h; simp at h
    · rintro ⟨hlt, -⟩; omega

/-- The collection loop records at most as many responses as it has
iterations remaining. -/
theorem collectGo_length_le (t0 lim : Nat) :
    ∀ (k : Nat) (led : Bool) (tr : List Poll), (collectGo t0 lim k led tr).1.length ≤ k := by
  intro k
  induction k with
  | zero => intro led tr; simp [collectGo]
  | succ k ih =>
    intro led tr
    cases hd : debounceStart tr with
    | none => simp [collectGo, hd]
    | some tr1 =>
      cases hdet : detectRun t0 lim tr1 with
      | exhausted => simp [collectGo, hd, hdet]
      | deadline rest => simp [collectGo, hd, hdet]
      | detected t rest =>
        simp only [collectGo, hd, hdet, List.length_cons]
        exact Nat.succ_le_succ (ih false rest)

/-- When the collection loop runs out of iterations (exit `completed`), it
has recorded exactly as many responses as it had iterations. -/
theorem collectGo_completed (t0 lim : Nat) :
    ∀ (k : Nat) (led : Bool) (tr : List Poll),
      (collectGo t0 lim k led tr).2.2 = ExitKind.completed →
      (collectGo t0 lim k led tr).1.length = k := by
  intro k
  induction k with
  | zero => intro led tr _; simp [collectGo]
  | succ k ih =>
    intro led tr h
    cases hd : debounceStart tr with
    | none => simp [collectGo, hd] at h
    | some tr1 =>
      cases hdet : detectRun t0 lim tr1 with
      | exhausted => simp [collectGo, hd, hdet] at h
      | deadline rest => simp [collectGo, hd, hdet] at h
      | detected t rest =>
        simp only [collectGo, hd, hdet, List.length_cons] at h ⊢
        exact congrArg Nat.succ (ih false rest h)

/-- A detected tap comes from a sample of the trace: the recorded timestamp
is the wrapped time of that sample and it passed the deadline check. -/
theorem detectRun_detected (t0 lim : Nat) :
    ∀ (tr : List Poll) (t : Nat) (rest : List Poll),
      detectRun t0 lim tr = DetectResult.detected t rest →
      ∃ pre p, tr = pre ++ p :: rest ∧ t = p.time % M32 ∧ usub32 t t0 < lim := by
  intro tr
  induction tr with
  | nil => intro t rest h; simp [detectRun] at h
  | cons p ps ih =>
    intro t rest h
    cases hs : detectStep t0 lim p with
    | deadline => simp [detectRun, hs] at h
    | detected =>
      simp [detectRun, hs] at h
      obtain ⟨ht, hrest⟩ := h
      subst hrest
      refine ⟨[], p, by simp, ht.symm, ?_⟩
      rw [ht.symm] at *
      exact ((detectStep_detected_iff t0 lim p).mp hs).1
    | keep =>
      simp only [detectRun, hs] at h
      obtain ⟨pre, q, hps, ht, hlt⟩ := ih t rest h
      exact ⟨p :: pre, q, by simp [hps], ht, hlt⟩

/-- The debounce loop consumes a prefix of the trace. -/
theorem debounceRun_rest :
    ∀ (tr : List Poll) (tref : Nat) (rest : List Poll),
      debounceRun tref tr = some rest → ∃ pre, tr = pre ++ rest := by
  intro tr
  induction tr with
  | nil => intro tref rest h; simp [debounceRun] at h
  | cons p ps ih =>
    intro tref rest h
    cases hs : debounceStep tref p with
    | done =>
      simp [debounceRun, hs] at h
      exact ⟨[p], by simp [h]⟩
    | reset =>
      simp only [debounceRun, hs] at h
      obtain ⟨pre, hp⟩ := ih _ _ h
      exact ⟨p :: pre, by simp [hp]⟩
    | keep =>
      simp only [debounceRun, hs] at h
      obtain ⟨pre, hp⟩ := ih _ _ h
      exact ⟨p :: pre, by simp [hp]⟩

/-- The debounce phase, including its initial reference sample, consumes a
prefix of the trace. -/
theorem debounceStart_rest (tr tr1 : List Poll) (h : debounceStart tr = some tr1) :
    ∃ pre, tr = pre ++ tr1 := by
  cases tr with
  | nil => simp [debounceStart] at h
  | cons p ps =>
    simp only [debounceStart] at h
    obtain ⟨pre, hp⟩ := debounceRun_rest ps (p.time % M32) tr1 h
    exact ⟨p :: pre, by simp [hp]⟩

/-- Every timestamp recorded by the collection loop is the wrapped time of a
sample of the trace; the recording samples form a sublist of the trace (so
they occur in trace order), and each passed the deadline check. -/
theorem collectGo_polls (t0 lim : Nat) :
    ∀ (k : Nat) (led : Bool) (tr : List Poll),
      ∃ polls : List Poll, List.Sublist polls tr ∧
        (collectGo t0 lim k led tr).1 = polls.map (fun p => p.time % M32) ∧
        ∀ p ∈ polls, usub32 (p.time % M32) t0 < lim := by
  intro k
  induction k with
  | zero =>
    intro led tr
    exact ⟨[], List.nil_sublist tr, by simp [collectGo], by simp⟩
  | succ k ih =>
    intro led tr
    cases hd : debounceStart tr with
    | none => exact ⟨[], List.nil_sublist tr, by simp [collectGo, hd], by simp⟩
    | some tr1 =>
      cases hdet : detectRun t0 lim tr1 with
      | exhausted => exact ⟨[], List.nil_sublist tr, by simp [collectGo, hd, hdet], by simp⟩
      | deadline rest => exact ⟨[], List.nil_sublist tr, by simp [collectGo, hd, hdet], by simp⟩
      | detected t rest =>
        obtain ⟨pre1, p, htr1, ht, hlt⟩ := detectRun_detected t0 lim tr1 t rest hdet
        obtain ⟨polls, hsub, hmap, hbound⟩ := ih false rest
        obtain ⟨pre0, htr⟩ := debounceStart_rest tr tr1 hd
        refine ⟨p :: polls, ?_, ?_, ?_⟩
        · have h1 : List.Sublist (p :: polls) (p :: rest) := List.Sublist.cons₂ p hsub
          have h2 : List.Sublist (p :: rest) tr1 := by
            rw [htr1]; exact List.sublist_append_right pre1 (p :: rest)
          have h3 : List.Sublist tr1 tr := by
            rw [htr]; exact List.sublist_append_right pre0 tr1
          exact (h1.trans h2).trans h3
        · simp only [collectGo, hd, hdet, List.map_cons]
          rw [hmap, ht]
        · intro q hq
          rcases List.mem_cons.mp hq with hq | hq
          · subst hq; rw [← ht]; exact hlt
          · exact hbound q hq

/-- Claim C1: for every requested response count, the target count actually
used by the collector equals `min c MaxRespCount` (the clamp of line 136,
applied before the first use of the target), so no trial ever records more
than the fixed capacity of the `respTAbs` buffer. -/
theorem C1_clamp_min (c ms t0true : Nat) (tr : List Poll) :
    clampTarget c = min c MaxRespCount ∧
    (runTrial c ms t0true tr).respCountTarget = min c MaxRespCount ∧
    (runTrial c ms t0true tr).respCount ≤ MaxRespCount := by
  have hmin : clampTarget c = min c MaxRespCount := by
    unfold clampTarget
    split <;> omega
  have hcap : clampTarget c ≤ MaxRespCount := by
    unfold clampTarget
    split <;> omega
  refine ⟨hmin, by simp [runTrial, hmin], ?_⟩
  have hle := collectGo_length_le (t0true % M32) (ms * 1000 % M32) (clampTarget c) true tr
  simp only [runTrial]
  omega

/-- Claim C3: the number of responses actually collected never exceeds the
clamped target, and equals it whenever the collection loop ran to completion
rather than exiting on the deadline. -/
theorem C3_collected_count (c ms t0true : Nat) (tr : List Poll) :
    (runTrial c ms t0true tr).respCount ≤ (runTrial c ms t0true tr).respCountTarget ∧
    ((runTrial c ms t0true tr).exit = ExitKind.completed →
      (runTrial c ms t0true tr).respCount = (runTrial c ms t0true tr).respCountTarget) := by
  constructor
  · have hle := collectGo_length_le (t0true % M32) (ms * 1000 % M32) (clampTarget c) true tr
    simpa [runTrial] using hle
  · intro hc
    have hc2 : (collectGo (t0true % M32) (ms * 1000 % M32) (clampTarget c) true tr).2.2 =
        ExitKind.completed := by
      simpa [runTrial] using hc
    have := collectGo_completed (t0true % M32) (ms * 1000 % M32) (clampTarget c) true tr hc2
    simpa [runTrial] using this

/-- Witness for C3 at a concrete trial that runs to completion. -/
theorem C3_collected_count_witness :
    (runTrial 1 500 0 demoTrace).exit = ExitKind.completed ∧
    (runTrial 1 500 0 demoTrace).respCount = (runTrial 1 500 0 demoTrace).respCountTarget :=
  ⟨by decide, (C3_collected_count 1 500 0 demoTrace).2 (by decide)⟩

/-- Claim C7: for true times `start ≤ now` separated by less than one wrap
of the 2^32 clock domain, the unsigned subtraction of the wrapped samples
(the `now - reference` of the debounce and deadline comparisons) equals the
true elapsed time, even when the wrapped `now` is numerically smaller. -/
theorem C7_wrap_subtraction (start now : Nat) (h1 : start ≤ now) (h2 : now - start < M32) :
    usub32 (now % M32) (start % M32) = now - start :=
  usub32_elapsed start now h1 h2

/-- Witness for C7 across a rollover: the wrapped now is numerically below
the wrapped start, yet the computed elapsed time is the true 400. -/
theorem C7_wrap_subtraction_witness :
    4294967000 ≤ 4294967400 ∧ 4294967400 - 4294967000 < M32 ∧
    4294967400 % M32 < 4294967000 % M32 ∧
    usub32 (4294967400 % M32) (4294967000 % M32) = 400 :=
  ⟨by decide, by decide, by decide,
   C7_wrap_subtraction 4294967000 4294967400 (by decide) (by decide)⟩

/-- Claim C8: the stale-input discard of line 130 precedes both integer
reads, so neither parsed parameter depends on the stale buffer contents:
both reads consume only post-discard input. -/
theorem C8_stale_discarded (stale stale2 fresh : List Char) :
    flushStale stale fresh = fresh ∧
    readTrialParams stale fresh = readTrialParams stale2 fresh ∧
    (readTrialParams stale fresh).1 = (parseIntM fresh).1 ∧
    (readTrialParams stale fresh).2.1 = (parseIntM (parseIntM fresh).2).1 := by
  have hf : ∀ s : List Char, flushStale s fresh = fresh := by
    intro s
    induction s with
    | nil => rfl
    | cons a s ih => simpa [flushStale] using ih
  refine ⟨hf stale, ?_, ?_, ?_⟩ <;> simp [readTrialParams, hf]

/-- Claim C9 (evaluation at the failing input): in a trial whose target
count is zero, the collection loop body never runs, so the LED set at the
start of parameter input is still asserted while the result record is
reported — the code does not clear it, contrary to its own header comment
that the LED is off while reporting results. -/
theorem C9_led_zero_target :
    (runTrial 0 500 0 []).respCountTarget = 0 ∧
    (runTrial 0 500 0 []).exit = ExitKind.completed ∧
    (runTrial 0 500 0 []).ledAtReport = true := by
  decide

/-- Claim C10: the first field of the emitted result record is the clamped
target count, because the clamp is applied to the same variable that is
later printed; for any requested count above `MaxRespCount` the echoed
field equals `MaxRespCount` (256). -/
theorem C10_echoed_target (c ms t0true tEnd : Nat) (tr : List Poll) :
    (reportFields (runTrial c ms t0true tr) tEnd).head? = some (clampTarget c) ∧
    (MaxRespCount < c →
      (reportFields (runTrial c ms t0true tr) tEnd).head? = some MaxRespCount) := by
  constructor
  · simp [reportFields, runTrial]
  · intro h
    simp [reportFields, runTrial, clampTarget, h]

/-- Witness for C10 at a request of 1000 responses: the echoed field is 256. -/
theorem C10_echoed_target_witness :
    MaxRespCount < 1000 ∧
    (reportFields (runTrial 1000 500 0 demoTrace) 90000).head? = some MaxRespCount :=
  ⟨by decide, (C10_echoed_target 1000 500 0 90000 demoTrace).2 (by decide)⟩

/-- Claim C2: on a trace whose true sample times are non-decreasing, all at
least the trial start time and within one wrap of it, the reported relative
timestamps (wrap-tolerant unsigned subtraction of the start) are
monotonically non-decreasing in arrival order and each is at most
`timeLimitMs * 1000`. -/
theorem C2_relative_timestamps (c ms t0true : Nat) (tr : List Poll)
    (hmono : tr.Pairwise (fun p q => p.time ≤ q.time))
    (hlo : ∀ p ∈ tr, t0true ≤ p.time)
    (hwrap : ∀ p ∈ tr, p.time - t0true < M32) :
    (runTrial c ms t0true tr).rels.Pairwise (fun a b => a ≤ b) ∧
    ∀ r ∈ (runTrial c ms t0true tr).rels, r ≤ ms * 1000 := by
  obtain ⟨polls, hsub, hmap, hbound⟩ :=
    collectGo_polls (t0true % M32) (ms * 1000 % M32) (clampTarget c) true tr
  have hrels : (runTrial c ms t0true tr).rels =
      polls.map (fun p => usub32 (p.time % M32) (t0true % M32)) := by
    simp [runTrial, hmap, List.map_map]
  have hmem : ∀ p ∈ polls, p ∈ tr := fun p hp => hsub.subset hp
  have heq : ∀ p ∈ polls, usub32 (p.time % M32) (t0true % M32) = p.time - t0true := by
    intro p hp
    exact usub32_elapsed t0true p.time (hlo p (hmem p hp)) (hwrap p (hmem p hp))
  constructor
  · rw [hrels, List.pairwise_map]
    have hpw : polls.Pairwise (fun p q => p.time ≤ q.time) := hmono.sublist hsub
    refine hpw.imp_of_mem ?_
    intro a b ha hb hab
    rw [heq a ha, heq b hb]
    omega
  · intro r hr
    rw [hrels] at hr
    obtain ⟨p, hp, hpr⟩ := List.mem_map.mp hr
    have h1 := hbound p hp
    have h2 : ms * 1000 % M32 ≤ ms * 1000 := Nat.mod_le _ _
    omega

/-- Witness for C2 on a concrete monotone trace: one tap at relative time
70000, within the 500 ms limit. -/
theorem C2_relative_timestamps_witness :
    demoTrace.Pairwise (fun p q => p.time ≤ q.time) ∧
    (runTrial 1 500 0 demoTrace).rels.Pairwise (fun a b => a ≤ b) :=
  ⟨by decide, (C2_relative_timestamps 1 500 0 demoTrace (by decide) (by decide) (by decide)).1⟩

/-- Claim C4: once the deadline check of the detection loop succeeds, the
whole collection terminates at once — for any number of outstanding
iterations the loop returns with no further response recorded — and every
timestamp that is recorded passed the deadline check (its elapsed time is
strictly below the limit). -/
theorem C4_deadline_exit (t0 lim : Nat) :
    (∀ (k : Nat) (led : Bool) (tr tr1 rest : List Poll),
        debounceStart tr = some tr1 →
        detectRun t0 lim tr1 = DetectResult.deadline rest →
        collectGo t0 lim (k + 1) led tr = ([], false, ExitKind.deadlineHit)) ∧
    (∀ (k : Nat) (led : Bool) (tr : List Poll) (t : Nat),
        t ∈ (collectGo t0 lim k led tr).1 → usub32 t t0 < lim) := by
  constructor
  · intro k led tr tr1 rest hd hdl
    simp [collectGo, hd, hdl]
  · intro k
    induction k with
    | zero => intro led tr t ht; simp [collectGo] at ht
    | succ k ih =>
      intro led tr t ht
      cases hd : debounceStart tr with
      | none => simp [collectGo, hd] at ht
      | some tr1 =>
        cases hdet : detectRun t0 lim tr1 with
        | exhausted => simp [collectGo, hd, hdet] at ht
        | deadline rest => simp [collectGo, hd, hdet] at ht
        | detected t2 rest =>
          simp only [collectGo, hd, hdet, List.mem_cons] at ht
          rcases ht with ht | ht
          · obtain ⟨pre, p, _, ht2, hlt⟩ := detectRun_detected t0 lim tr1 t2 rest hdet
            subst ht
            exact hlt
          · exact ih false rest t ht

/-- Witness for C4: a concrete deadline hit ends a 5-iteration collection
with nothing recorded, and a concrete recorded timestamp is below the limit. -/
theorem C4_deadline_exit_witness :
    collectGo 0 100 5 true deadlineTrace = ([], false, ExitKind.deadlineHit) ∧
    usub32 70000 0 < 500000 :=
  ⟨(C4_deadline_exit 0 100).1 4 true deadlineTrace [⟨60200, 0, false, false⟩] []
      (by decide) (by decide),
   (C4_deadline_exit 0 500000).2 1 true demoTrace 70000 (by decide)⟩

/-- Claim C5: whenever the debounce loop completes, the trace it consumed
decomposes so that every sample since the last re-arm (or since the initial
reference, when no sample ever reached the low threshold) read strictly
below the low threshold, and the elapsed time from that re-arm reference to
the completing sample is at least `tDebounce`; while the signal keeps
reaching the threshold, each such sample re-arms the reference, so the
debounce phase — and hence the detection attempt — does not begin. -/
theorem C5_debounce_complete :
    ∀ (tr : List Poll) (tref : Nat) (rest : List Poll),
      debounceRun tref tr = some rest →
      ∃ pre mid e, tr = pre ++ mid ++ e :: rest ∧
        (∀ p ∈ mid, p.analog < adThreshLow) ∧
        ((pre = [] ∧ tDebounce ≤ usub32 (e.time % M32) tref) ∨
         (∃ pre1 q, pre = pre1 ++ [q] ∧ adThreshLow ≤ q.analog ∧
            tDebounce ≤ usub32 (e.time % M32) (q.time % M32))) := by
  intro tr
  induction tr with
  | nil => intro tref rest h; simp [debounceRun] at h
  | cons p ps ih =>
    intro tref rest h
    cases hs : debounceStep tref p with
    | done =>
      simp [debounceRun, hs] at h
      subst h
      exact ⟨[], [], p, by simp, by simp, Or.inl ⟨rfl, (debounceStep_done_iff tref p).mp hs⟩⟩
    | reset =>
      simp only [debounceRun, hs] at h
      obtain ⟨pre, mid, e, htr, hmid, hcase⟩ := ih (p.time % M32) rest h
      rcases hcase with ⟨hpre, helap⟩ | ⟨pre1, q, hpre, hq, helap⟩
      · subst hpre
        refine ⟨[p], mid, e, by simp [htr], hmid, Or.inr ⟨[], p, by simp, ?_, helap⟩⟩
        exact ((debounceStep_reset_iff tref p).mp hs).2
      · exact ⟨p :: pre, mid, e, by simp [htr], hmid,
          Or.inr ⟨p :: pre1, q, by simp [hpre], hq, helap⟩⟩
    | keep =>
      simp only [debounceRun, hs] at h
      obtain ⟨pre, mid, e, htr, hmid, hcase⟩ := ih tref rest h
      rcases hcase with ⟨hpre, helap⟩ | ⟨pre1, q, hpre, hq, helap⟩
      · subst hpre
        refine ⟨[], p :: mid, e, by simp [htr], ?_, Or.inl ⟨rfl, helap⟩⟩
        intro x hx
        rcases List.mem_cons.mp hx with hx | hx
        · subst hx
          exact ((debounceStep_keep_iff tref _).mp hs).2
        · exact hmid x hx
      · exact ⟨p :: pre, mid, e, by simp [htr], hmid,
          Or.inr ⟨p :: pre1, q, by simp [hpre], hq, helap⟩⟩

/-- Witness for C5 on a trace whose first sample reaches the low threshold
(re-arming at time 1000) and whose second completes the window at 61500. -/
theorem C5_debounce_complete_witness :
    debounceRun 0 bounceTrace = some [] ∧
    (∃ pre mid e, bounceTrace = pre ++ mid ++ e :: [] ∧
      (∀ p ∈ mid, p.analog < adThreshLow) ∧
      ((pre = [] ∧ tDebounce ≤ usub32 (e.time % M32) 0) ∨
       (∃ pre1 q, pre = pre1 ++ [q] ∧ adThreshLow ≤ q.analog ∧
          tDebounce ≤ usub32 (e.time % M32) (q.time % M32)))) :=
  ⟨by decide, C5_debounce_complete bounceTrace 0 [] (by decide)⟩

/-- Claim C6: threshold comparisons are inclusive at the boundary: when the
deadline check passes, the detection step detects a tap exactly when a
digital input reports active or the analog reading is at-or-above the high
threshold (either alone sufficient); and when the debounce window has not
elapsed, the debounce step re-arms exactly when the analog reading is
at-or-above the low threshold. -/
theorem C6_threshold_boundary (t0 lim tref : Nat) (p : Poll) :
    (usub32 (p.time % M32) t0 < lim →
      (detectStep t0 lim p = DetStep.detected ↔
        (p.button1 || p.button2 || decide (adThreshHigh ≤ p.analog)) = true)) ∧
    (usub32 (p.time % M32) tref < tDebounce →
      (debounceStep tref p = DebStep.reset ↔ adThreshLow ≤ p.analog)) := by
  constructor
  · intro h
    rw [detectStep_detected_iff]
    simp [h, Bool.or_eq_true, decide_eq_true_eq, or_assoc]
  · intro h
    rw [debounceStep_reset_iff]
    simp [h]

/-- Witness for C6 at a reading exactly at the shared threshold 25: it both
triggers detection and re-arms the debounce window. -/
theorem C6_threshold_boundary_witness :
    usub32 (boundaryPoll.time % M32) 0 < 100 ∧
    usub32 (boundaryPoll.time % M32) 0 < tDebounce ∧
    detectStep 0 100 boundaryPoll = DetStep.detected ∧
    debounceStep 0 boundaryPoll = DebStep.reset :=
  ⟨by decide, by decide,
   ((C6_threshold_boundary 0 100 0 boundaryPoll).1 (by decide)).mpr (by decide),
   ((C6_threshold_boundary 0 100 0 boundaryPoll).2 (by decide)).mpr (by decide)⟩

end TapArduino
